import Mathlib

/-!
Shallow embedding of the tide-compress middleware (src/middleware.rs) and
proofs about its negotiation pipeline.

Modelling choices:

* The three codec Cargo features are compile-time flags in the source; here
  they are a runtime record of booleans threaded through the
  definitions that the source gates with cfg attributes.
* Header parsing is performed by the external http-types collaborator.  The
  request and response therefore carry the outcome of each parse as an
  Except value; a parse error propagates exactly where the source applies
  the question-mark operator.
* The downstream handler chain is a function producing the response; the
  pipeline result carries a counter of how many times it ran.
* Bodies are an inductive value: an opaque downstream byte stream with an
  optional known length, or an encoder-wrapped stream (whose length is
  unknown, matching from_reader with a None length).
-/

namespace TideCompress

/-- Compression level presets, as in the async-compression Level type. -/
inductive Level where
  | fastest
  | best
  | default
  | precise (quality : Int)
deriving DecidableEq, Repr

/-- CompressionLevels (middleware.rs lines 33-41): one level per algorithm.
The source gates each field behind its codec feature; the record always has
the three fields and the Features record below tracks which codecs are
compiled in. -/
structure CompressionLevels where
  brotli : Level
  gzip : Level
  deflate : Level
deriving DecidableEq, Repr

/-- Default for CompressionLevels (middleware.rs lines 43-54). -/
def CompressionLevels.defaultLevels : CompressionLevels :=
  { brotli := Level.default, gzip := Level.default, deflate := Level.default }

/-- CompressionLevels.all (middleware.rs lines 70-79). -/
def CompressionLevels.all (level : Level) : CompressionLevels :=
  { brotli := level, gzip := level, deflate := level }

/-- THRESHOLD constant (middleware.rs line 15). -/
def THRESHOLD : Nat := 1024

/-- CompressMiddleware (middleware.rs lines 92-96). -/
structure CompressMiddleware where
  threshold : Nat
  levels : CompressionLevels
deriving DecidableEq, Repr

/-- Default for CompressMiddleware (middleware.rs lines 98-105). -/
def CompressMiddleware.defaultMw : CompressMiddleware :=
  { threshold := THRESHOLD, levels := CompressionLevels.defaultLevels }

/-- CompressMiddleware.new (middleware.rs lines 120-122). -/
def CompressMiddleware.new : CompressMiddleware :=
  CompressMiddleware.defaultMw

/-- CompressMiddleware.with_threshold (middleware.rs lines 140-145). -/
def CompressMiddleware.with_threshold (threshold : Nat) : CompressMiddleware :=
  { CompressMiddleware.defaultMw with threshold := threshold }

/-- CompressMiddleware.with_levels (middleware.rs lines 169-174). -/
def CompressMiddleware.with_levels (levels : CompressionLevels) : CompressMiddleware :=
  { CompressMiddleware.defaultMw with levels := levels }

/-- CompressMiddleware.with_threshold_and_levels (middleware.rs lines 198-200). -/
def CompressMiddleware.with_threshold_and_levels
    (threshold : Nat) (levels : CompressionLevels) : CompressMiddleware :=
  { threshold := threshold, levels := levels }

/-- Encoding variants used by the middleware (http-types content Encoding). -/
inductive Encoding where
  | gzip
  | deflate
  | br
  | identity
deriving DecidableEq, Repr

/-- Which codec features are compiled into the build (cfg feature flags). -/
structure Features where
  brotli : Bool
  gzip : Bool
  deflate : Bool
deriving DecidableEq, Repr

/-- A header parse failure surfaced by an http-types header parser. -/
structure HErr where
  header : String
deriving DecidableEq, Repr

/-- Cache-Control directives relevant to the pipeline. -/
inductive CacheDirective where
  | noTransform
  | noCache
  | maxAge (secs : Nat)
deriving DecidableEq, Repr

/-- One Accept-Encoding entry: an encoding with an optional q-value, kept in
thousandths so that q ranges over 0..1000. -/
structure EncodingProposal where
  encoding : Encoding
  weight : Option Nat
deriving DecidableEq, Repr

/-- Parsed Accept-Encoding header: an ordered proposal list plus whether the
wildcard was present. -/
structure AcceptEncoding where
  entries : List EncodingProposal
  wildcard : Bool
deriving DecidableEq, Repr

/-- Response bodies: an opaque downstream stream with an optional known
length, or a stream wrapped in one of the streaming encoders. -/
inductive Body where
  | stream (tag : Nat) (knownLen : Option Nat)
  | encoded (alg : Encoding) (lvl : Level) (inner : Body)
deriving DecidableEq, Repr

/-- The length the response reports for its body (res.len in the source);
an encoder-wrapped body has unknown length. -/
def Body.len : Body → Option Nat
  | Body.stream _ l => l
  | Body.encoded _ _ _ => none

/-- Whether a body is wrapped in a streaming encoder. -/
def Body.isEncoded : Body → Bool
  | Body.stream _ _ => false
  | Body.encoded _ _ _ => true

/-- Request methods (only Head is distinguished by the middleware). -/
inductive Method where
  | get
  | head
  | post
  | put
  | delete
deriving DecidableEq, Repr

instance exceptDecEq {ε : Type u} {α : Type v} [DecidableEq ε] [DecidableEq α] :
    DecidableEq (Except ε α) := fun x y =>
  match x, y with
  | Except.ok a, Except.ok b =>
    if h : a = b then isTrue (by rw [h])
    else isFalse (by intro he; cases he; exact h rfl)
  | Except.ok _, Except.error _ => isFalse (by intro h; cases h)
  | Except.error _, Except.ok _ => isFalse (by intro h; cases h)
  | Except.error a, Except.error b =>
    if h : a = b then isTrue (by rw [h])
    else isFalse (by intro he; cases he; exact h rfl)

/-- The request data the middleware reads: the method, and the outcome of the
external Accept-Encoding header parse (ok none when the header is absent,
error when it is present but malformed). -/
structure Request where
  method : Method
  acceptEncoding : Except HErr (Option AcceptEncoding)
deriving DecidableEq, Repr

/-- The response data the middleware reads and writes.  The Content-Encoding
header may hold several values (downstream code can append); each value is
recorded as the outcome of the external per-value parse. -/
structure Response where
  cacheControl : Except HErr (Option (List CacheDirective))
  contentEncoding : List (Except HErr Encoding)
  vary : List String
  contentLength : Option Nat
  body : Body
deriving DecidableEq, Repr

/-- The list of encodings the source offers to negotiation (middleware.rs
lines 254-261), in source order, gated by the feature flags. -/
def compiledList (fs : Features) : List Encoding :=
  (if fs.brotli then [Encoding.br] else []) ++
    (if fs.gzip then [Encoding.gzip] else []) ++
      (if fs.deflate then [Encoding.deflate] else [])

/-- get_encoder (middleware.rs lines 275-307): wrap the body in the encoder
matching the chosen encoding, when that codec is compiled in; otherwise
return the body unchanged. -/
def get_encoder (body : Body) (encoding : Encoding) (fs : Features)
    (levels : CompressionLevels) : Body :=
  if fs.brotli ∧ encoding = Encoding.br then
    Body.encoded Encoding.br levels.brotli body
  else if fs.gzip ∧ encoding = Encoding.gzip then
    Body.encoded Encoding.gzip levels.gzip body
  else if fs.deflate ∧ encoding = Encoding.deflate then
    Body.encoded Encoding.deflate levels.deflate body
  else
    body

/-- The level the configuration assigns to an algorithm. -/
def CompressionLevels.levelOf (l : CompressionLevels) : Encoding → Level
  | Encoding.br => l.brotli
  | Encoding.gzip => l.gzip
  | Encoding.deflate => l.deflate
  | Encoding.identity => Level.default

/-- ContentEncoding.from_headers of http-types: absent header gives ok none,
otherwise the last header value decides, propagating its parse outcome. -/
def contentEncodingFromHeaders (res : Response) : Except HErr (Option Encoding) :=
  match res.contentEncoding.getLast? with
  | none => Except.ok none
  | some v => v.map some

/-- Whether parsed Cache-Control directives contain no-transform. -/
def ccHasNoTransform : Option (List CacheDirective) → Bool
  | none => false
  | some ds => ds.contains CacheDirective.noTransform

/-- Whether a parsed previous Content-Encoding is non-identity
(middleware.rs lines 240-244). -/
def nonIdentity : Option Encoding → Bool
  | none => false
  | some e => decide (e ≠ Encoding.identity)

/-- Vary apply (middleware.rs lines 233-236): a fresh Vary value holding
exactly accept-encoding is inserted, replacing any previous Vary header. -/
def applyVary (res : Response) : Response :=
  { res with vary := ["accept-encoding"] }

/-- The q-value of a proposal; an unspecified weight counts as maximal. -/
def qval (p : EncodingProposal) : Nat := p.weight.getD 1000

/-- First proposal of maximal q-value; earlier entries win ties. -/
def pickBest : List EncodingProposal → Option EncodingProposal
  | [] => none
  | p :: ps =>
    match pickBest ps with
    | none => some p
    | some q => if qval p < qval q then some q else some p

/-- Modelled from the spec (section 4.1, Encoder Selector): the repository
delegates negotiation to the AcceptEncoding negotiate method of http-types,
whose code is not part of this repository, so the selector is modelled from
the spec: quality-value-aware matching restricted to the compiled-in
candidate set, preferring the algorithm most preferred by the client among
those available, and falling back to identity when no compiled-in algorithm
is acceptable to the client. -/
def select (accepts : AcceptEncoding) (available : List Encoding) : Encoding :=
  let candidates := accepts.entries.filter fun p =>
    available.contains p.encoding && decide (0 < qval p)
  match pickBest candidates with
  | some p => p.encoding
  | none =>
    if accepts.wildcard then available.headD Encoding.identity
    else Encoding.identity

/-- Middleware.rs lines 253-268: take the body, negotiate an encoding via the
selector, install the encoder-backed body, apply the chosen Content-Encoding
(replacing the header values) and remove Content-Length. -/
def compressStage (mw : CompressMiddleware) (fs : Features)
    (accepts : AcceptEncoding) (res : Response) : Response :=
  let body := res.body
  let encoding := select accepts (compiledList fs)
  { res with
    body := get_encoder body encoding fs mw.levels
    contentEncoding := [Except.ok encoding]
    contentLength := none }

/-- Middleware.rs lines 238-270: the checks on the response after the Vary
header has been applied (the source shadows res with the varied response). -/
def handleVaried (mw : CompressMiddleware) (fs : Features)
    (accepts : AcceptEncoding) (res : Response) : Except HErr Response :=
  match contentEncodingFromHeaders res with
  | Except.error e => Except.error e
  | Except.ok prev =>
    if nonIdentity prev then Except.ok res
    else
      match res.body.len with
      | some bodyLen =>
        if bodyLen < mw.threshold then Except.ok res
        else Except.ok (compressStage mw fs accepts res)
      | none => Except.ok (compressStage mw fs accepts res)

/-- Middleware.rs lines 222-270: the checks that run on the downstream
response once the request-side short-circuits have passed. -/
def handleRes (mw : CompressMiddleware) (fs : Features)
    (accepts : AcceptEncoding) (res : Response) : Except HErr Response :=
  match res.cacheControl with
  | Except.error e => Except.error e
  | Except.ok cc =>
    if ccHasNoTransform cc then Except.ok res
    else handleVaried mw fs accepts (applyVary res)

/-- CompressMiddleware handle (middleware.rs lines 205-271).  The second
component counts how many times the downstream chain ran: the Accept-Encoding
parse happens before the downstream call, so a malformed header returns the
error with the chain never run; afterwards the chain runs exactly once. -/
def handle (mw : CompressMiddleware) (fs : Features) (req : Request)
    (next : Unit → Response) : Except HErr Response × Nat :=
  match req.acceptEncoding with
  | Except.error e => (Except.error e, 0)
  | Except.ok accepts =>
    match accepts with
    | none => (Except.ok (next ()), 1)
    | some accepts =>
      if req.method = Method.head then (Except.ok (next ()), 1)
      else (handleRes mw fs accepts (next ()), 1)

/-! ### Concrete fixtures for closed statements -/

def fsAll : Features := { brotli := true, gzip := true, deflate := true }

def fsNoBrotli : Features := { brotli := false, gzip := true, deflate := true }

def fsNone : Features := { brotli := false, gzip := false, deflate := false }

def aeGzipOnly : AcceptEncoding :=
  { entries := [{ encoding := Encoding.gzip, weight := some 1000 }], wildcard := false }

def aeBrOnly : AcceptEncoding :=
  { entries := [{ encoding := Encoding.br, weight := some 1000 }], wildcard := false }

def c1Req : Request := { method := Method.get, acceptEncoding := Except.ok (some aeGzipOnly) }

def c1Ds : Response :=
  { cacheControl := Except.ok (some [CacheDirective.noTransform]), contentEncoding := [],
    vary := [], contentLength := some 2048, body := Body.stream 0 (some 2048) }

def c1Next : Unit → Response := fun _ => c1Ds

def c1wDs : Response :=
  { cacheControl := Except.ok none, contentEncoding := [], vary := [],
    contentLength := some 10, body := Body.stream 1 (some 10) }

def c1wNext : Unit → Response := fun _ => c1wDs

def c2Req : Request := { method := Method.get, acceptEncoding := Except.ok (some aeBrOnly) }

def c2Ds : Response :=
  { cacheControl := Except.ok none, contentEncoding := [], vary := [],
    contentLength := some 2048, body := Body.stream 0 (some 2048) }

def c2Next : Unit → Response := fun _ => c2Ds

def c2Out : Response :=
  { c2Ds with vary := ["accept-encoding"],
              contentEncoding := [Except.ok Encoding.identity], contentLength := none }

def c2wReq : Request := { method := Method.get, acceptEncoding := Except.ok (some aeGzipOnly) }

def c2wDs : Response :=
  { cacheControl := Except.ok none, contentEncoding := [], vary := [],
    contentLength := some 1024, body := Body.stream 2 (some 1024) }

def c2wNext : Unit → Response := fun _ => c2wDs

def c2wOut : Response :=
  { c2wDs with vary := ["accept-encoding"],
               contentEncoding := [Except.ok Encoding.gzip], contentLength := none,
               body := Body.encoded Encoding.gzip Level.default (Body.stream 2 (some 1024)) }

def c3Req : Request := { method := Method.get, acceptEncoding := Except.ok (some aeGzipOnly) }

def c3Ds : Response :=
  { cacheControl := Except.ok none, contentEncoding := [], vary := [],
    contentLength := some 2048, body := Body.stream 3 (some 2048) }

def c3Next : Unit → Response := fun _ => c3Ds

def c3Out : Response :=
  { c3Ds with vary := ["accept-encoding"],
              contentEncoding := [Except.ok Encoding.identity], contentLength := none }

def c4Req : Request :=
  { method := Method.head, acceptEncoding := Except.error { header := "accept-encoding" } }

def c4Ds : Response :=
  { cacheControl := Except.ok none, contentEncoding := [], vary := [],
    contentLength := some 2048, body := Body.stream 0 (some 2048) }

def c4Next : Unit → Response := fun _ => c4Ds

def c4wReq : Request := { method := Method.get, acceptEncoding := Except.ok none }

def c5Req : Request := { method := Method.get, acceptEncoding := Except.ok (some aeGzipOnly) }

def c5Ds : Response :=
  { cacheControl := Except.ok (some [CacheDirective.noTransform]), contentEncoding := [],
    vary := [], contentLength := some 4096, body := Body.stream 0 (some 4096) }

def c5Next : Unit → Response := fun _ => c5Ds

def c6Req : Request := { method := Method.get, acceptEncoding := Except.ok (some aeGzipOnly) }

def c6Ds : Response :=
  { cacheControl := Except.ok none, contentEncoding := [Except.ok Encoding.br], vary := [],
    contentLength := some 2048, body := Body.stream 4 (some 2048) }

def c6Next : Unit → Response := fun _ => c6Ds

def c7Req : Request := { method := Method.get, acceptEncoding := Except.ok (some aeGzipOnly) }

def c7Ds : Response :=
  { cacheControl := Except.ok none,
    contentEncoding := [Except.ok Encoding.gzip, Except.ok Encoding.br], vary := [],
    contentLength := some 2048, body := Body.stream 5 (some 2048) }

def c7Next : Unit → Response := fun _ => c7Ds

def c7Out : Response := { c7Ds with vary := ["accept-encoding"] }

def c7wDs : Response :=
  { cacheControl := Except.ok none, contentEncoding := [], vary := [],
    contentLength := none, body := Body.stream 6 none }

def c7wNext : Unit → Response := fun _ => c7wDs

def c7wOut : Response :=
  { c7wDs with vary := ["accept-encoding"],
               contentEncoding := [Except.ok Encoding.gzip], contentLength := none,
               body := Body.encoded Encoding.gzip Level.default (Body.stream 6 none) }

def c10Req : Request :=
  { method := Method.get, acceptEncoding := Except.error { header := "accept-encoding" } }

/-! ### Helper lemmas -/

theorem pickBest_mem {l : List EncodingProposal} {p : EncodingProposal}
    (h : pickBest l = some p) : p ∈ l := by
  induction l with
  | nil => simp [pickBest] at h
  | cons q qs ih =>
    unfold pickBest at h
    cases hq : pickBest qs with
    | none => rw [hq] at h; cases h; exact List.mem_cons_self _ _
    | some r =>
      rw [hq] at h
      by_cases hlt : qval q < qval r
      · simp only [hlt, if_true] at h
        cases h
        exact List.mem_cons_of_mem _ (ih hq)
      · simp only [hlt, if_false] at h
        cases h
        exact List.mem_cons_self _ _

theorem select_mem {a : AcceptEncoding} {avail : List Encoding}
    (h : select a avail ≠ Encoding.identity) : select a avail ∈ avail := by
  unfold select at h ⊢
  cases hp : pickBest (a.entries.filter fun p =>
      avail.contains p.encoding && decide (0 < qval p)) with
  | some p =>
    simp only [hp]
    have hmem := pickBest_mem hp
    have := List.of_mem_filter hmem
    have hc : avail.contains p.encoding := by
      cases hcc : avail.contains p.encoding with
      | true => rfl
      | false => rw [hcc] at this; simp at this
    exact List.mem_of_elem_eq_true hc
  | none =>
    simp only [hp] at h ⊢
    by_cases hw : a.wildcard
    · simp only [hw, if_true] at h ⊢
      cases avail with
      | nil => exact absurd rfl h
      | cons x xs => exact List.mem_cons_self _ _
    · simp only [hw, if_false] at h
      exact absurd rfl h

theorem get_encoder_of_mem {e : Encoding} {fs : Features}
    (hmem : e ∈ compiledList fs) (hne : e ≠ Encoding.identity)
    (b : Body) (lv : CompressionLevels) :
    get_encoder b e fs lv = Body.encoded e (lv.levelOf e) b := by
  rcases fs with ⟨fb, fg, fd⟩
  cases e with
  | identity => exact absurd rfl hne
  | br =>
    have hb : fb = true := by
      cases fb with
      | true => rfl
      | false => cases fg <;> cases fd <;> simp [compiledList] at hmem
    subst hb
    simp [get_encoder, CompressionLevels.levelOf]
  | gzip =>
    have hg : fg = true := by
      cases fg with
      | true => rfl
      | false => cases fb <;> cases fd <;> simp [compiledList] at hmem
    subst hg
    simp [get_encoder, CompressionLevels.levelOf]
  | deflate =>
    have hd : fd = true := by
      cases fd with
      | true => rfl
      | false => cases fb <;> cases fg <;> simp [compiledList] at hmem
    subst hd
    simp [get_encoder, CompressionLevels.levelOf]

theorem contentEncodingFromHeaders_applyVary (res : Response) :
    contentEncodingFromHeaders (applyVary res) = contentEncodingFromHeaders res := rfl

theorem applyVary_body (res : Response) : (applyVary res).body = res.body := rfl

theorem handleVaried_ok_cases {mw : CompressMiddleware} {fs : Features}
    {a : AcceptEncoding} {res r : Response}
    (h : handleVaried mw fs a res = Except.ok r) :
    r = res ∨ r = compressStage mw fs a res := by
  unfold handleVaried at h
  split at h
  · exact Except.noConfusion h
  · split at h
    · cases h; exact Or.inl rfl
    · split at h
      · split at h
        · cases h; exact Or.inl rfl
        · cases h; exact Or.inr rfl
      · cases h; exact Or.inr rfl

theorem handleRes_ok_cases {mw : CompressMiddleware} {fs : Features}
    {a : AcceptEncoding} {res r : Response}
    (h : handleRes mw fs a res = Except.ok r) :
    r = res ∨ r = applyVary res ∨ r = compressStage mw fs a (applyVary res) := by
  unfold handleRes at h
  split at h
  · exact Except.noConfusion h
  · split at h
    · cases h; exact Or.inl rfl
    · rcases handleVaried_ok_cases h with h' | h'
      · exact Or.inr (Or.inl h')
      · exact Or.inr (Or.inr h')

theorem handle_ok_cases {mw : CompressMiddleware} {fs : Features}
    {req : Request} {next : Unit → Response} {r : Response}
    (h : (handle mw fs req next).1 = Except.ok r) :
    r = next () ∨ r = applyVary (next ())
      ∨ ∃ a, req.acceptEncoding = Except.ok (some a)
          ∧ r = compressStage mw fs a (applyVary (next ())) := by
  unfold handle at h
  split at h
  · exact Except.noConfusion h
  · rename_i accepts heq
    split at h
    · replace h : Except.ok (next ()) = Except.ok r := h
      cases h
      exact Or.inl rfl
    · rename_i a
      split at h
      · replace h : Except.ok (next ()) = Except.ok r := h
        cases h
        exact Or.inl rfl
      · replace h : handleRes mw fs a (next ()) = Except.ok r := h
        rcases handleRes_ok_cases h with h' | h' | h'
        · exact Or.inl h'
        · exact Or.inr (Or.inl h')
        · exact Or.inr (Or.inr ⟨a, heq, h'⟩)

theorem handle_passthrough_aux (mw : CompressMiddleware) (fs : Features)
    (req : Request) (next : Unit → Response) (oa : Option AcceptEncoding)
    (hae : req.acceptEncoding = Except.ok oa)
    (h : req.method = Method.head ∨ oa = none) :
    handle mw fs req next = (Except.ok (next ()), 1) := by
  unfold handle
  rw [hae]
  cases oa with
  | none => rfl
  | some a =>
    rcases h with hm | hnone
    · simp [hm]
    · exact Option.noConfusion hnone

theorem handle_run {mw : CompressMiddleware} {fs : Features} {req : Request}
    {next : Unit → Response} {a : AcceptEncoding}
    (hae : req.acceptEncoding = Except.ok (some a))
    (hm : req.method ≠ Method.head) :
    (handle mw fs req next).1 = handleRes mw fs a (next ()) := by
  simp only [handle, hae]
  rw [if_neg hm]

theorem handleRes_run {mw : CompressMiddleware} {fs : Features}
    {a : AcceptEncoding} {res : Response} {cc : Option (List CacheDirective)}
    (hcc : res.cacheControl = Except.ok cc)
    (hnt : ccHasNoTransform cc = false) :
    handleRes mw fs a res = handleVaried mw fs a (applyVary res) := by
  simp only [handleRes, hcc, hnt, Bool.false_eq_true, if_false]

theorem handleVaried_threshold {mw : CompressMiddleware} {fs : Features}
    {a : AcceptEncoding} {res : Response} {prev : Option Encoding} {L : Nat}
    (hce : contentEncodingFromHeaders res = Except.ok prev)
    (hni : nonIdentity prev = false)
    (hlen : res.body.len = some L) :
    handleVaried mw fs a res
      = if L < mw.threshold then Except.ok res
        else Except.ok (compressStage mw fs a res) := by
  simp only [handleVaried, hce, hni, Bool.false_eq_true, if_false, hlen]

theorem handleVaried_unknown_len {mw : CompressMiddleware} {fs : Features}
    {a : AcceptEncoding} {res : Response} {prev : Option Encoding}
    (hce : contentEncodingFromHeaders res = Except.ok prev)
    (hni : nonIdentity prev = false)
    (hlen : res.body.len = none) :
    handleVaried mw fs a res = Except.ok (compressStage mw fs a res) := by
  simp only [handleVaried, hce, hni, Bool.false_eq_true, if_false, hlen]

/-! ### Claims -/

/-- C4 counterexample: a HEAD request whose Accept-Encoding header is present
but malformed makes handle return the parse error, not a response identical
to the downstream one: the parse runs before the HEAD short-circuit. -/
theorem c4_head_malformed_errors :
    c4Req.method = Method.head
      ∧ (handle CompressMiddleware.new fsAll c4Req c4Next).1
          = Except.error { header := "accept-encoding" }
      ∧ (handle CompressMiddleware.new fsAll c4Req c4Next).1
          ≠ Except.ok (c4Next ()) := by
  decide

/-- C4 (amended): for every handle invocation where the Accept-Encoding
header is absent, or the method is HEAD and the Accept-Encoding header (when
present) parses successfully, the returned response is identical to the one
produced by downstream (no Vary added, no encoding applied) and the
downstream chain ran exactly once. -/
theorem c4_passthrough (mw : CompressMiddleware) (fs : Features)
    (req : Request) (next : Unit → Response) (oa : Option AcceptEncoding)
    (hae : req.acceptEncoding = Except.ok oa)
    (h : req.method = Method.head ∨ oa = none) :
    handle mw fs req next = (Except.ok (next ()), 1) :=
  handle_passthrough_aux mw fs req next oa hae h

/-- Witness for C4: a GET request without an Accept-Encoding header passes
through untouched. -/
theorem c4_passthrough_witness :
    handle CompressMiddleware.new fsAll c4wReq c4Next = (Except.ok (c4Next ()), 1) :=
  c4_passthrough CompressMiddleware.new fsAll c4wReq c4Next none rfl (Or.inr rfl)

/-- C5: for every handle invocation whose Accept-Encoding parse succeeded and
whose downstream response carries a Cache-Control header containing the
no-transform directive, the response is returned unmodified, whatever the
Accept-Encoding contents, body length and threshold. -/
theorem c5_no_transform_unmodified (mw : CompressMiddleware) (fs : Features)
    (req : Request) (next : Unit → Response) (oa : Option AcceptEncoding)
    (dirs : List CacheDirective)
    (hae : req.acceptEncoding = Except.ok oa)
    (hcc : (next ()).cacheControl = Except.ok (some dirs))
    (hnt : CacheDirective.noTransform ∈ dirs) :
    (handle mw fs req next).1 = Except.ok (next ()) := by
  cases oa with
  | none =>
    rw [handle_passthrough_aux mw fs req next none hae (Or.inr rfl)]
  | some a =>
    by_cases hm : req.method = Method.head
    · rw [handle_passthrough_aux mw fs req next (some a) hae (Or.inl hm)]
    · rw [handle_run hae hm]
      have hb : ccHasNoTransform (some dirs) = true := by
        simp only [ccHasNoTransform]
        exact List.elem_eq_true_of_mem hnt
      simp only [handleRes, hcc, hb, if_true]

/-- Witness for C5: a large body with Accept-Encoding gzip is still returned
unmodified under Cache-Control no-transform. -/
theorem c5_no_transform_witness :
    (handle CompressMiddleware.new fsAll c5Req c5Next).1 = Except.ok (c5Next ()) :=
  c5_no_transform_unmodified CompressMiddleware.new fsAll c5Req c5Next
    (some aeGzipOnly) [CacheDirective.noTransform] rfl rfl (by decide)

/-- C8: with client preferences br at q 0.8 and gzip at q 1.0 and the
compiled-in set holding gzip and deflate, the selector chooses gzip, not the
unavailable br and not the unexpressed deflate. -/
theorem c8_selector_prefers_gzip :
    select { entries := [{ encoding := Encoding.br, weight := some 800 },
                         { encoding := Encoding.gzip, weight := some 1000 }],
             wildcard := false }
        [Encoding.gzip, Encoding.deflate]
      = Encoding.gzip := by
  decide

/-- C9: new (and Default) gives threshold 1024 with every level at the codec
library default; with_threshold keeps default levels; with_levels keeps
threshold 1024. -/
theorem c9_construction :
    CompressMiddleware.new
        = { threshold := 1024,
            levels := { brotli := Level.default, gzip := Level.default,
                        deflate := Level.default } }
      ∧ CompressMiddleware.new = CompressMiddleware.defaultMw
      ∧ (∀ t : Nat, CompressMiddleware.with_threshold t
          = { threshold := t, levels := CompressionLevels.defaultLevels })
      ∧ (∀ l : CompressionLevels, CompressMiddleware.with_levels l
          = { threshold := 1024, levels := l }) :=
  ⟨rfl, rfl, fun _ => rfl, fun _ => rfl⟩

/-- C10: a request whose Accept-Encoding header is present but malformed
makes handle return the parse error with the downstream chain run zero
times: no response is produced or transformed. -/
theorem c10_malformed_no_downstream (mw : CompressMiddleware) (fs : Features)
    (req : Request) (next : Unit → Response) (e : HErr)
    (h : req.acceptEncoding = Except.error e) :
    handle mw fs req next = (Except.error e, 0) := by
  unfold handle
  rw [h]

/-- Witness for C10: a concrete malformed Accept-Encoding request errors out
before downstream runs. -/
theorem c10_malformed_witness :
    handle CompressMiddleware.new fsAll c10Req c4Next
      = (Except.error { header := "accept-encoding" }, 0) :=
  c10_malformed_no_downstream CompressMiddleware.new fsAll c10Req c4Next
    { header := "accept-encoding" } rfl

theorem handle_small_aux {mw : CompressMiddleware} {fs : Features} {req : Request}
    {next : Unit → Response} {a : AcceptEncoding} {cc : Option (List CacheDirective)}
    {prev : Option Encoding} {L : Nat}
    (hae : req.acceptEncoding = Except.ok (some a))
    (hm : req.method ≠ Method.head)
    (hcc : (next ()).cacheControl = Except.ok cc)
    (hnt : ccHasNoTransform cc = false)
    (hce : contentEncodingFromHeaders (next ()) = Except.ok prev)
    (hni : nonIdentity prev = false)
    (hlen : (next ()).body.len = some L)
    (hlt : L < mw.threshold) :
    (handle mw fs req next).1 = Except.ok (applyVary (next ())) := by
  rw [handle_run hae hm, handleRes_run hcc hnt,
    handleVaried_threshold (by rw [contentEncodingFromHeaders_applyVary]; exact hce) hni
      (by rw [applyVary_body]; exact hlen),
    if_pos hlt]

theorem handle_compress_aux {mw : CompressMiddleware} {fs : Features} {req : Request}
    {next : Unit → Response} {a : AcceptEncoding} {cc : Option (List CacheDirective)}
    {prev : Option Encoding} {L : Nat}
    (hae : req.acceptEncoding = Except.ok (some a))
    (hm : req.method ≠ Method.head)
    (hcc : (next ()).cacheControl = Except.ok cc)
    (hnt : ccHasNoTransform cc = false)
    (hce : contentEncodingFromHeaders (next ()) = Except.ok prev)
    (hni : nonIdentity prev = false)
    (hlen : (next ()).body.len = some L)
    (hge : mw.threshold ≤ L) :
    (handle mw fs req next).1
      = Except.ok (compressStage mw fs a (applyVary (next ()))) := by
  rw [handle_run hae hm, handleRes_run hcc hnt,
    handleVaried_threshold (by rw [contentEncodingFromHeaders_applyVary]; exact hce) hni
      (by rw [applyVary_body]; exact hlen),
    if_neg (not_lt.mpr hge)]

theorem handle_compress_len_aux {mw : CompressMiddleware} {fs : Features}
    {req : Request} {next : Unit → Response} {a : AcceptEncoding}
    {cc : Option (List CacheDirective)} {prev : Option Encoding}
    (hae : req.acceptEncoding = Except.ok (some a))
    (hm : req.method ≠ Method.head)
    (hcc : (next ()).cacheControl = Except.ok cc)
    (hnt : ccHasNoTransform cc = false)
    (hce : contentEncodingFromHeaders (next ()) = Except.ok prev)
    (hni : nonIdentity prev = false)
    (hbig : ∀ L, (next ()).body.len = some L → mw.threshold ≤ L) :
    (handle mw fs req next).1
      = Except.ok (compressStage mw fs a (applyVary (next ()))) := by
  cases hlen : (next ()).body.len with
  | none =>
    rw [handle_run hae hm, handleRes_run hcc hnt,
      handleVaried_unknown_len (by rw [contentEncodingFromHeaders_applyVary]; exact hce) hni
        (by rw [applyVary_body]; exact hlen)]
  | some L =>
    exact handle_compress_aux hae hm hcc hnt hce hni hlen (hbig L hlen)

/-- C1 counterexample: a non-HEAD invocation with a valid Accept-Encoding
header whose downstream response carries Cache-Control no-transform skips
compression for a reason other than HEAD or an absent Accept-Encoding
header, yet the returned response does not carry Vary accept-encoding: the
no-transform short-circuit runs before the Vary header is applied. -/
theorem c1_no_transform_lacks_vary :
    (handle CompressMiddleware.new fsAll c1Req c1Next).1 = Except.ok c1Ds
      ∧ c1Req.method ≠ Method.head
      ∧ c1Req.acceptEncoding = Except.ok (some aeGzipOnly)
      ∧ "accept-encoding" ∉ c1Ds.vary := by
  decide

/-- C1 (amended): whenever compression is skipped for any reason other than
HEAD, an absent Accept-Encoding header, or the Cache-Control no-transform
path, the returned response carries a Vary header containing
accept-encoding; the compressed path carries it as well. -/
theorem c1_vary_on_skip (mw : CompressMiddleware) (fs : Features)
    (req : Request) (next : Unit → Response) (a : AcceptEncoding)
    (cc : Option (List CacheDirective)) (r : Response)
    (hae : req.acceptEncoding = Except.ok (some a))
    (hm : req.method ≠ Method.head)
    (hcc : (next ()).cacheControl = Except.ok cc)
    (hnt : ccHasNoTransform cc = false)
    (hr : (handle mw fs req next).1 = Except.ok r) :
    "accept-encoding" ∈ r.vary := by
  rw [handle_run hae hm, handleRes_run hcc hnt] at hr
  rcases handleVaried_ok_cases hr with h | h
  · subst h
    simp [applyVary]
  · subst h
    simp [compressStage, applyVary]

/-- Witness for C1: a below-threshold skip still carries the Vary header. -/
theorem c1_vary_on_skip_witness :
    "accept-encoding" ∈ (applyVary c1wDs).vary :=
  c1_vary_on_skip CompressMiddleware.new fsAll c1Req c1wNext aeGzipOnly none
    (applyVary c1wDs) rfl (by decide) rfl rfl (by decide)

/-- C2 counterexample: a GET request whose Accept-Encoding lists only br,
against a build without the brotli codec, passes every short-circuit named
by the claim with a body of length 2048 at threshold 1024, yet no
compression is applied: the selector yields identity and the body is left
unwrapped. -/
theorem c2_no_match_no_compression :
    c2Req.method ≠ Method.head
      ∧ c2Req.acceptEncoding = Except.ok (some aeBrOnly)
      ∧ c2Ds.cacheControl = Except.ok none
      ∧ contentEncodingFromHeaders c2Ds = Except.ok none
      ∧ c2Ds.body.len = some 2048
      ∧ CompressMiddleware.new.threshold ≤ 2048
      ∧ (handle CompressMiddleware.new fsNoBrotli c2Req c2Next).1 = Except.ok c2Out
      ∧ c2Out.body.isEncoded = false
      ∧ c2Out.body = c2Ds.body := by
  decide

/-- C2 (amended): once the pipeline reaches the size check with a known body
length L and the selector picks a non-identity encoding, L below the
threshold skips compression and L at or above the threshold compresses; the
boundary L equal to the threshold compresses. -/
theorem c2_threshold_boundary (mw : CompressMiddleware) (fs : Features)
    (req : Request) (next : Unit → Response) (a : AcceptEncoding)
    (cc : Option (List CacheDirective)) (prev : Option Encoding) (L : Nat)
    (hae : req.acceptEncoding = Except.ok (some a))
    (hm : req.method ≠ Method.head)
    (hcc : (next ()).cacheControl = Except.ok cc)
    (hnt : ccHasNoTransform cc = false)
    (hce : contentEncodingFromHeaders (next ()) = Except.ok prev)
    (hni : nonIdentity prev = false)
    (hlen : (next ()).body.len = some L)
    (hsel : select a (compiledList fs) ≠ Encoding.identity) :
    (L < mw.threshold → (handle mw fs req next).1 = Except.ok (applyVary (next ())))
      ∧ (mw.threshold ≤ L →
          (handle mw fs req next).1
            = Except.ok { applyVary (next ()) with
                          body := Body.encoded (select a (compiledList fs))
                            (mw.levels.levelOf (select a (compiledList fs)))
                            ((next ()).body),
                          contentEncoding := [Except.ok (select a (compiledList fs))],
                          contentLength := none }) := by
  constructor
  · intro hlt
    exact handle_small_aux hae hm hcc hnt hce hni hlen hlt
  · intro hge
    rw [handle_compress_aux hae hm hcc hnt hce hni hlen hge]
    simp only [compressStage]
    rw [get_encoder_of_mem (select_mem hsel) hsel]
    rfl

/-- Witness for C2: the boundary case, body length exactly equal to the
default threshold 1024, is compressed. -/
theorem c2_threshold_boundary_witness :
    (handle CompressMiddleware.new fsAll c2wReq c2wNext).1
      = Except.ok { applyVary (c2wNext ()) with
                    body := Body.encoded (select aeGzipOnly (compiledList fsAll))
                      (CompressMiddleware.new.levels.levelOf
                        (select aeGzipOnly (compiledList fsAll)))
                      ((c2wNext ()).body),
                    contentEncoding := [Except.ok (select aeGzipOnly (compiledList fsAll))],
                    contentLength := none } :=
  (c2_threshold_boundary CompressMiddleware.new fsAll c2wReq c2wNext aeGzipOnly
      none none 1024 rfl (by decide) rfl rfl rfl rfl rfl (by decide)).2 (by decide)

theorem filter_compiledNone (l : List EncodingProposal) :
    (l.filter fun p => (compiledList fsNone).contains p.encoding && decide (0 < qval p))
      = [] := by
  induction l with
  | nil => rfl
  | cons x xs ih => simp [List.filter_cons, compiledList, fsNone, ih]

/-- C3: with no codec features enabled the selector returns identity for
every Accept-Encoding preference list, and handle never rewrites the body:
any response it returns carries the downstream body unchanged. -/
theorem c3_no_codecs_identity :
    (∀ a : AcceptEncoding, select a (compiledList fsNone) = Encoding.identity)
      ∧ (∀ (mw : CompressMiddleware) (req : Request) (next : Unit → Response)
          (r : Response),
          (handle mw fsNone req next).1 = Except.ok r → r.body = (next ()).body) := by
  constructor
  · intro a
    simp only [select, filter_compiledNone, pickBest]
    cases hw : a.wildcard
    · simp
    · simp [compiledList, fsNone]
  · intro mw req next r hr
    rcases handle_ok_cases hr with h | h | ⟨a, hae, h⟩
    · subst h; rfl
    · subst h; rfl
    · subst h
      simp [compressStage, get_encoder, fsNone, applyVary]

/-- Witness for C3: a concrete gzip-accepting request against the empty
compiled-in set selects identity and the returned body is untouched. -/
theorem c3_no_codecs_witness :
    select aeGzipOnly (compiledList fsNone) = Encoding.identity
      ∧ c3Out.body = (c3Next ()).body :=
  ⟨c3_no_codecs_identity.1 aeGzipOnly,
   c3_no_codecs_identity.2 CompressMiddleware.new c3Req c3Next c3Out (by decide)⟩

/-- C6: whenever the downstream response already declares a non-identity
Content-Encoding, handle returns a response (unmodified, or with only the
Vary header rewritten) whose Content-Encoding header values and body are
exactly those produced downstream: no double compression, no override. -/
theorem c6_preexisting_encoding_kept (mw : CompressMiddleware) (fs : Features)
    (req : Request) (next : Unit → Response) (oa : Option AcceptEncoding)
    (cc : Option (List CacheDirective)) (e : Encoding)
    (hae : req.acceptEncoding = Except.ok oa)
    (hcc : (next ()).cacheControl = Except.ok cc)
    (hce : contentEncodingFromHeaders (next ()) = Except.ok (some e))
    (hne : e ≠ Encoding.identity) :
    ((handle mw fs req next).1 = Except.ok (next ())
        ∨ (handle mw fs req next).1 = Except.ok (applyVary (next ())))
      ∧ ∀ r, (handle mw fs req next).1 = Except.ok r →
          r.contentEncoding = (next ()).contentEncoding ∧ r.body = (next ()).body := by
  have hres : (handle mw fs req next).1 = Except.ok (next ())
      ∨ (handle mw fs req next).1 = Except.ok (applyVary (next ())) := by
    cases oa with
    | none =>
      left
      rw [handle_passthrough_aux mw fs req next none hae (Or.inr rfl)]
    | some a =>
      by_cases hm : req.method = Method.head
      · left
        rw [handle_passthrough_aux mw fs req next (some a) hae (Or.inl hm)]
      · cases hnt : ccHasNoTransform cc with
        | true =>
          left
          rw [handle_run hae hm]
          simp only [handleRes, hcc, hnt, if_true]
        | false =>
          right
          rw [handle_run hae hm, handleRes_run hcc hnt]
          have hni : nonIdentity (some e) = true := by
            simp [nonIdentity, hne]
          simp only [handleVaried, contentEncodingFromHeaders_applyVary, hce, hni, if_true]
  refine ⟨hres, ?_⟩
  intro r hr
  rcases hres with h | h
  · rw [h] at hr
    cases hr
    exact ⟨rfl, rfl⟩
  · rw [h] at hr
    cases hr
    exact ⟨rfl, rfl⟩

/-- Witness for C6: a downstream response declaring Content-Encoding br
keeps its header values and body through the pipeline. -/
theorem c6_preexisting_encoding_witness :
    (applyVary c6Ds).contentEncoding = (c6Next ()).contentEncoding
      ∧ (applyVary c6Ds).body = (c6Next ()).body :=
  (c6_preexisting_encoding_kept CompressMiddleware.new fsAll c6Req c6Next
      (some aeGzipOnly) none Encoding.br rfl rfl rfl (by decide)).2
    (applyVary c6Ds) (by decide)

/-- C7 counterexample: a downstream response carrying two Content-Encoding
values, the last non-identity, is passed through (with Vary rewritten) still
carrying two Content-Encoding values, so a response leaving the pipeline can
have more than one Content-Encoding value. -/
theorem c7_two_encoding_values_leave :
    (handle CompressMiddleware.new fsAll c7Req c7Next).1 = Except.ok c7Out
      ∧ c7Out.contentEncoding.length = 2 := by
  decide

/-- C7 (amended): if the downstream response has at most one Content-Encoding
value the returned response has at most one; and whenever compression is
applied (the pipeline reaches the compress stage, because the body length is
unknown or meets the threshold, and the selection is non-identity), the
returned response has exactly one Content-Encoding value naming the chosen
algorithm and no Content-Length header. -/
theorem c7_encoding_header_invariants :
    (∀ (mw : CompressMiddleware) (fs : Features) (req : Request)
        (next : Unit → Response) (r : Response),
        (handle mw fs req next).1 = Except.ok r →
          (next ()).contentEncoding.length ≤ 1 → r.contentEncoding.length ≤ 1)
      ∧ (∀ (mw : CompressMiddleware) (fs : Features) (req : Request)
          (next : Unit → Response) (a : AcceptEncoding)
          (cc : Option (List CacheDirective)) (prev : Option Encoding),
          req.acceptEncoding = Except.ok (some a) → req.method ≠ Method.head →
          (next ()).cacheControl = Except.ok cc → ccHasNoTransform cc = false →
          contentEncodingFromHeaders (next ()) = Except.ok prev →
          nonIdentity prev = false →
          (∀ L, (next ()).body.len = some L → mw.threshold ≤ L) →
          select a (compiledList fs) ≠ Encoding.identity →
          ∀ r, (handle mw fs req next).1 = Except.ok r →
            r.contentEncoding = [Except.ok (select a (compiledList fs))]
              ∧ r.contentLength = none) := by
  constructor
  · intro mw fs req next r hr hone
    rcases handle_ok_cases hr with h | h | ⟨a, hae, h⟩
    · subst h; exact hone
    · subst h; exact hone
    · subst h
      simp [compressStage]
  · intro mw fs req next a cc prev hae hm hcc hnt hce hni hbig hsel r hr
    rw [handle_compress_len_aux hae hm hcc hnt hce hni hbig] at hr
    cases hr
    exact ⟨rfl, rfl⟩

/-- Witness for C7: an unknown-length body is compressed and leaves with one
Content-Encoding value naming gzip and no Content-Length. -/
theorem c7_encoding_header_witness :
    c2wOut.contentEncoding.length ≤ 1
      ∧ (c7wOut.contentEncoding = [Except.ok (select aeGzipOnly (compiledList fsAll))]
          ∧ c7wOut.contentLength = none) :=
  ⟨c7_encoding_header_invariants.1 CompressMiddleware.new fsAll c2wReq c2wNext c2wOut
      (by decide) (by decide),
   c7_encoding_header_invariants.2 CompressMiddleware.new fsAll c2wReq c7wNext aeGzipOnly
      none none rfl (by decide) rfl rfl rfl rfl
      (by intro L hL; cases hL) (by decide)
      c7wOut (by decide)⟩

end TideCompress
